import Mathlib

/-!
Verification of the asynchronous RCON client in `app/src/rcon.py`
(`RconClient`).  The byte-level packet codec, the response verifier, the
read loop, the reconnect loop, the command-processing worker, and the
cleanup path are embedded as executable Lean functions; machine `int32`
values are modelled as `Int` with explicit two's-complement reduction
modulo `2^32`, and byte strings as `List Nat` (each entry `< 256`).
-/

namespace PyWrite

/-! Part: int32 little-endian codec (`struct.pack('<i', ·)` / `struct.unpack('<i', ·)`) -/

/-- The unsigned 32-bit representative of an `Int`, i.e. the value reduced
into `[0, 2^32)` as two's complement. -/
def toUInt32Nat (i : Int) : Nat := (i % 4294967296).toNat

/-- Model of `struct.pack('<i', i)`: the four little-endian bytes of a
signed 32-bit integer.  (`struct` raises for out-of-range input; the embedding is total
via two's-complement reduction, and range hypotheses appear on the
theorems.) -/
def int32LEBytes (i : Int) : List Nat :=
  let u := toUInt32Nat i
  [u % 256, u / 256 % 256, u / 65536 % 256, u / 16777216 % 256]

/-- Model of `struct.unpack('<i', b)[0]`: read four little-endian bytes as
a signed 32-bit integer (two's complement). -/
def int32LE (b : List Nat) : Int :=
  let u := b.getD 0 0 + 256 * b.getD 1 0 + 65536 * b.getD 2 0 + 16777216 * b.getD 3 0
  if u < 2147483648 then (u : Int) else (u : Int) - 4294967296

theorem int32LEBytes_length (i : Int) : (int32LEBytes i).length = 4 := rfl

theorem int32LE_int32LEBytes (i : Int)
    (h1 : -2147483648 ≤ i) (h2 : i < 2147483648) :
    int32LE (int32LEBytes i) = i := by
  unfold int32LE int32LEBytes toUInt32Nat
  simp only [List.getD_cons_zero, List.getD_cons_succ]
  split <;> omega

/-! Part: Errors raised by the client

The source raises `ValueError` with a message (via `_cleanup`), and
`struct.error` escapes `struct.unpack` when fewer than 8 header bytes are
available.  The spec's taxonomy names `ValueError "Incorrect password."`
an `AuthenticationError` and `ValueError "Invalid padding."` a
`ProtocolError`. -/

inductive RconErr where
  | valueError (msg : String)
  | structError
deriving DecidableEq, Repr

/-- The message of the `ValueError` raised on the auth sentinel. -/
def incorrectPassword : String := "Incorrect password."

/-- The message of the `ValueError` raised on bad padding. -/
def invalidPadding : String := "Invalid padding."

/-- The spec's `AuthenticationError`: in the code,
`ValueError("Incorrect password.")` raised through `_cleanup`. -/
def authenticationError : RconErr := .valueError incorrectPassword

/-- The spec's `ProtocolError`: in the code,
`ValueError("Invalid padding.")` raised through `_cleanup`. -/
def protocolError : RconErr := .valueError invalidPadding

/-! Part: Response verification (`RconClient._verify`) -/

/-- Model of `RconClient._verify(in_pkt)`:
`in_id, in_type = struct.unpack('<ii', in_pkt[:8])` (raises `struct.error`
when fewer than 8 bytes are available);
`in_data, in_padd = in_pkt[8:-2], in_pkt[-2:]`;
`if in_id == -1:` cleanup raises `ValueError("Incorrect password.")`;
`if in_padd != b'\x00\x00':` cleanup raises `ValueError("Invalid padding.")`;
otherwise `return in_data`.  The cleanup side effects accompanying the two
`ValueError`s are applied by the worker model below. -/
def verify (pkt : List Nat) : Except RconErr (List Nat) :=
  if pkt.length < 8 then .error .structError
  else
    let in_id := int32LE (pkt.take 4)
    let in_data := (pkt.take (pkt.length - 2)).drop 8
    let in_padd := pkt.drop (pkt.length - 2)
    if in_id = -1 then .error authenticationError
    else if in_padd ≠ [0, 0] then .error protocolError
    else .ok in_data

/-! Part: Request encoding (`RconClient._send`, lines 185–187)

`out_packet = struct.pack('<li', 0, type) + cmd.encode('utf8') + b'\x00\x00'`
`out_len = struct.pack('<i', len(out_packet))`
`self._writer.write(out_len + out_packet)`

The source passes the literal `0` for the id field; the definitions are
generalized over the id (the spec's `encode(id, type, body)`), and the
worker model instantiates `id := 0`.  `cmd.encode('utf8')` is modelled as
the resulting byte list `body`. -/

def out_packet (id type : Int) (body : List Nat) : List Nat :=
  int32LEBytes id ++ int32LEBytes type ++ body ++ [0, 0]

/-- The length prefix: `struct.pack('<i', len(out_packet))`. -/
def out_len (id type : Int) (body : List Nat) : List Nat :=
  int32LEBytes ((out_packet id type body).length : Int)

/-- The full frame written to the transport: `out_len + out_packet`. -/
def out_frame (id type : Int) (body : List Nat) : List Nat :=
  out_len id type body ++ out_packet id type body

/-! Part: Response framing (`RconClient._send`, lines 190–191)

`in_length = struct.unpack('<i', await self._read(4))`
`in_packet = await self._read(in_length[0])`

specialized to a fully buffered stream (`_read n` returns exactly the
first `n` buffered bytes; the short-read loop itself is `readLoop`
below).  A negative decoded length makes `_read` return `b''` at once
(its `while` guard is immediately false), matching `Int.toNat`. -/

def recvPacket (stream : List Nat) : List Nat :=
  (stream.drop 4).take (int32LE (stream.take 4)).toNat

/-- Decoding an exchange: split the frame, then `_verify` the packet. -/
def decodeFrame (stream : List Nat) : Except RconErr (List Nat) :=
  verify (recvPacket stream)

/-! Part: The short-read accumulation loop (`RconClient._read`)

```
data = b''
while len(data) < len_b:
    data += await self._reader.read(len_b - len(data))
return data
```

The underlying `asyncio.StreamReader.read(n)` returns *up to* `n` bytes:
it is modelled by a byte stream together with a schedule `sizes` of chunk
sizes, each call delivering `min n s` of the buffered bytes for the next
scheduled size `s` (and up to `n` once the schedule is exhausted).  The
loop itself is fuel-indexed; `none` means the fuel ran out before the
`while` guard became false. -/

def streamRead (n : Nat) (stream sizes : List Nat) :
    List Nat × List Nat × List Nat :=
  match sizes with
  | [] => (stream.take n, stream.drop n, [])
  | s :: rest => (stream.take (min n s), stream.drop (min n s), rest)

def readLoop : Nat → Nat → List Nat → List Nat → List Nat →
    Option (List Nat × List Nat × List Nat)
  | 0, _, _, _, _ => none
  | fuel + 1, len_b, data, stream, sizes =>
    if len_b ≤ data.length then some (data, stream, sizes)
    else
      match streamRead (len_b - data.length) stream sizes with
      | (chunk, stream', sizes') => readLoop fuel len_b (data ++ chunk) stream' sizes'

theorem readLoop_exact : ∀ (fuel len_b : Nat) (data stream sizes : List Nat),
    (∀ s ∈ sizes, 1 ≤ s) →
    len_b ≤ data.length + stream.length →
    len_b - data.length < fuel →
    ∃ sizes', readLoop fuel len_b data stream sizes =
      some (data ++ stream.take (len_b - data.length),
            stream.drop (len_b - data.length), sizes') := by
  intro fuel
  induction fuel with
  | zero => intro len_b data stream sizes _ _ hf; omega
  | succ fuel ih =>
    intro len_b data stream sizes hsz hlen hf
    by_cases hle : len_b ≤ data.length
    · refine ⟨sizes, ?_⟩
      have h0 : len_b - data.length = 0 := by omega
      simp [readLoop, hle, h0]
    · have hk : 1 ≤ len_b - data.length := by omega
      match sizes with
      | [] =>
        have hchunk : (stream.take (len_b - data.length)).length =
            len_b - data.length := by
          simp [List.length_take]; omega
        obtain ⟨sz', hrec⟩ := ih len_b (data ++ stream.take (len_b - data.length))
          (stream.drop (len_b - data.length)) [] (by simp)
          (by simp [hchunk]; omega) (by simp [hchunk]; omega)
        refine ⟨sz', ?_⟩
        rw [readLoop]
        simp only [hle, if_false, streamRead]
        rw [hrec]
        have h0 : len_b - (data ++ stream.take (len_b - data.length)).length = 0 := by
          simp [hchunk]; omega
        rw [h0]
        simp
      | s :: rest =>
        have hs : 1 ≤ s := hsz s (by simp)
        set m := min (len_b - data.length) s with hm
        have hm1 : 1 ≤ m := by omega
        have hmle : m ≤ stream.length := by omega
        have hchunk : (stream.take m).length = m := by
          simp [List.length_take]; omega
        obtain ⟨sz', hrec⟩ := ih len_b (data ++ stream.take m)
          (stream.drop m) rest (fun x hx => hsz x (by simp [hx]))
          (by simp [hchunk]; omega) (by simp [hchunk]; omega)
        refine ⟨sz', ?_⟩
        rw [readLoop]
        simp only [hle, if_false, streamRead, ← hm]
        rw [hrec]
        have hsplit : len_b - (data ++ stream.take m).length =
            (len_b - data.length) - m := by simp [hchunk]; omega
        rw [hsplit]
        have htake : data ++ stream.take m ++ (stream.drop m).take (len_b - data.length - m) =
            data ++ stream.take (len_b - data.length) := by
          rw [List.append_assoc, ← List.take_add]
          congr 2
          omega
        have hdrop : (stream.drop m).drop (len_b - data.length - m) =
            stream.drop (len_b - data.length) := by
          rw [List.drop_drop]
          congr 1
          omega
        rw [htake, hdrop]

/-! Part: The reconnect loop (`RconClient._reconnect`)

```
attempt = 0
while True:
    try:
        if not self._writer:
            self._reader, self._writer = await asyncio.open_connection(...)
            await self._login()
            break
    except (ConnectionError, OSError) as e:
        if attempt == 5:
            self._cleanup(ConnectionError, "Unable to reconnect.")
        logger.error(...)
        attempt += 1
    await asyncio.sleep(5)
```

`ok k` tells whether the `k`-th `open_connection` call succeeds (raising
`ConnectionError`/`OSError` otherwise); `loginOk` abstracts `_login`
(which on an authentication failure raises `ValueError` out of the
`except (ConnectionError, OSError)` clause).  Note the `attempt == 5`
branch *calls `self._cleanup(...)` without `await`*: in Python this only
creates a coroutine object that is never run, so neither the transport
teardown nor the `raise ConnectionError` inside `_cleanup` ever happens;
the model records this as `cleanupsUnawaited` with no other state
change. -/

structure ReconState where
  writerHandle : Bool
  attempt : Nat
  opens : Nat
  sleeps : Nat
  cleanupsUnawaited : Nat
deriving DecidableEq, Repr

inductive ReconStep where
  | next (st : ReconState)
  | done (st : ReconState)
  | raised (st : ReconState)
deriving DecidableEq, Repr

def reconnectStep (ok : Nat → Bool) (loginOk : Bool) (st : ReconState) : ReconStep :=
  if st.writerHandle then
    -- `if not self._writer:` is false: try body skipped, no exception,
    -- no break; fall through to `await asyncio.sleep(5)` and loop
    .next { st with sleeps := st.sleeps + 1 }
  else if ok st.opens then
    let st1 := { st with opens := st.opens + 1, writerHandle := true }
    if loginOk then .done st1   -- `break`, skipping the sleep
    else .raised st1            -- `ValueError` from `_login` escapes the loop
  else
    let st1 := { st with opens := st.opens + 1 }
    let st2 := if st1.attempt = 5
      then { st1 with cleanupsUnawaited := st1.cleanupsUnawaited + 1 }
      else st1
    .next { st2 with attempt := st2.attempt + 1, sleeps := st2.sleeps + 1 }

inductive ReconOut where
  | timeout (st : ReconState)   -- fuel exhausted while still looping
  | done (st : ReconState)      -- `break` reached (connected and logged in)
  | raised (st : ReconState)    -- an exception escaped the loop
deriving DecidableEq, Repr

def reconnectRun (ok : Nat → Bool) (loginOk : Bool) : Nat → ReconState → ReconOut
  | 0, st => .timeout st
  | fuel + 1, st =>
    match reconnectStep ok loginOk st with
    | .next st1 => reconnectRun ok loginOk fuel st1
    | .done st1 => .done st1
    | .raised st1 => .raised st1

/-- The state on entering `_reconnect` from the first `connect()`:
no writer handle yet, `attempt = 0`. -/
def reconInit : ReconState := ⟨false, 0, 0, 0, 0⟩

/-! Part: The worker loop (`RconClient._process`) with `_send` inlined

```
while self._active:
    try:
        command, future = await self._cmd_queue.get()
        result = await self._send(command)
        future.set_result(result)
        self._cmd_queue.task_done()
    except asyncio.CancelledError:
        pass
    except ValueError as e:
        logger.error(f'RCON error: {e}')
    except (ConnectionError, OSError):
        logger.error(...)
        await self._reconnect()
```

The mock transport is a list of `RespEvent`s consumed one per exchange:
`pkt p` delivers the already length-deframed response packet `p` (the
framing itself is `readLoop`/`recvPacket`), `connError` makes the
exchange raise `ConnectionError`.  On a verified response, `future.
set_result(result)` is recorded in `resolutions` (the UTF-8 body is kept
as its byte list; `data.decode('utf8')` is modelled at the byte level).
On a `ValueError` from `_verify`, the `await self._cleanup(...)` inside
`_verify` runs first — closing the transport, requesting cancellation of
the worker task and clearing `_active` — and the raised `ValueError` is
then caught by `_process` and only logged: the future is never resolved
or rejected.  A `struct.error` (response shorter than 8 bytes) matches
none of the `except` clauses and kills the worker task (`crashed`).  On
`connError` the worker enters `_reconnect` with the writer handle still
set (it is never cleared on error); the run stops there and the behaviour
of `_reconnect` in that state is given by its own theorems. -/

inductive RespEvent where
  | pkt (bytes : List Nat)
  | connError
deriving DecidableEq, Repr

structure WState where
  active : Bool
  writerHandle : Bool          -- `self._writer is not None`
  writerClosed : Bool          -- the underlying transport has been closed
  taskCancelRequested : Bool   -- `self._process_task.cancel()` was called
  queue : List (Nat × List Nat)        -- pending (resultSlot index, command bytes)
  resolutions : List (Nat × List Nat)  -- `future.set_result` events, in order
  sent : List (List Nat)               -- frames written to the transport
  responses : List RespEvent           -- the mock transport's responses
  crashed : Bool
  inReconnect : Bool
deriving DecidableEq, Repr

def workerRun : Nat → WState → WState
  | 0, st => st
  | fuel + 1, st =>
    if ¬ st.active ∨ st.crashed ∨ st.inReconnect then st
    else
      match st.queue with
      | [] => st   -- `await self._cmd_queue.get()` suspends: no more input
      | (i, cmd) :: rest =>
        -- `_send`: write the frame (id literal 0, default type 2), then read
        let st1 := { st with queue := rest, sent := st.sent ++ [out_frame 0 2 cmd] }
        match st1.responses with
        | [] => st1   -- the read blocks forever
        | .connError :: resp' =>
          { st1 with responses := resp', inReconnect := true }
        | .pkt p :: resp' =>
          let st2 := { st1 with responses := resp' }
          match verify p with
          | .ok data =>
            workerRun fuel { st2 with resolutions := st2.resolutions ++ [(i, data)] }
          | .error (.valueError _) =>
            workerRun fuel { st2 with writerClosed := true,
                                      taskCancelRequested := true, active := false }
          | .error .structError => { st2 with crashed := true }

/-- The worker's state right after a successful `connect()`:
active, transport open, queue and mock responses given. -/
def mkWState (queue : List (Nat × List Nat)) (responses : List RespEvent) : WState :=
  { active := true, writerHandle := true, writerClosed := false,
    taskCancelRequested := false, queue := queue, resolutions := [],
    sent := [], responses := responses, crashed := false, inReconnect := false }

/-- A response packet that `_verify` accepts: at least the 8 header bytes,
id not the `-1` sentinel, and trailing `0x00 0x00` padding. -/
def wellFormedPkt (p : List Nat) : Prop :=
  8 ≤ p.length ∧ int32LE (p.take 4) ≠ -1 ∧ p.drop (p.length - 2) = [0, 0]

instance (p : List Nat) : Decidable (wellFormedPkt p) := by
  unfold wellFormedPkt; infer_instance

/-- A mock-transport event of a non-failing connection: a delivered,
well-formed response packet. -/
def wellFormedEvent : RespEvent → Prop
  | .pkt p => wellFormedPkt p
  | .connError => False

instance (e : RespEvent) : Decidable (wellFormedEvent e) := by
  cases e <;> unfold wellFormedEvent <;> infer_instance

/-! Part: Cleanup (`RconClient._cleanup`) at the resource level

```
if self._writer:
    self._writer.close()
    await self._writer.wait_closed()
if self._process_task:
    self._process_task.cancel()
self._active = False
...
if err_type:
    raise err_type(err_val)
```

`close()` / `cleanup()` never set `self._writer` or `self._process_task`
back to `None`, so a second call re-enters both branches; the asyncio
semantics modelled here are: `StreamWriter.close()` on an
already-closing transport is a no-op (close is idempotent, releasing the
transport only on the first call), and `Task.cancel()` on a finished
task returns `False` with no effect — a cancellation delivered by the
first cleanup finishes the worker while that cleanup suspends in
`await wait_closed()`, before a back-to-back second cleanup runs. -/

structure CleanupState where
  writerHandle : Bool     -- `self._writer is not None`
  writerReleased : Bool   -- the transport has been closed/released
  releaseCount : Nat      -- times the transport was actually released
  taskHandle : Bool       -- `self._process_task is not None`
  taskFinished : Bool     -- the worker task has completed or been cancelled
  cancelCount : Nat       -- effective cancellations delivered to the worker
  active : Bool
deriving DecidableEq, Repr

def cleanupRun (st : CleanupState) (errType errVal : Option String) :
    CleanupState × Option (String × Option String) :=
  let st1 := if st.writerHandle then
      { st with writerReleased := true,
                releaseCount := st.releaseCount + (if st.writerReleased then 0 else 1) }
    else st
  let st2 := if st1.taskHandle then
      (if st1.taskFinished then st1
       else { st1 with taskFinished := true, cancelCount := st1.cancelCount + 1 })
    else st1
  let st3 := { st2 with active := false }
  match errType with
  | none => (st3, none)
  | some t => (st3, some (t, errVal))

/-- The resource state of a freshly constructed client (`__init__`):
`_writer = None`, `_process_task = None`, `_active = False`. -/
def cleanupInit : CleanupState := ⟨false, false, 0, false, false, 0, false⟩

/-! Part: The facade (`RconClient.connect` / `cleanup`) at the task level

`connect()` sets `_active = True` and creates the `_process` task only
when `self._process_task` is falsy; nothing in the class ever resets
`_process_task` to `None` (`_cleanup` cancels it but keeps the handle).
The `await self._reconnect()` that follows task creation is modelled by
`reconnectRun`. -/

inductive FacadeOp where
  | connectOp
  | closeOp
deriving DecidableEq, Repr

structure FacadeState where
  active : Bool
  taskHandle : Bool
  tasksCreated : Nat
deriving DecidableEq, Repr

/-- The task-creating prefix of `connect()`. -/
def connectStart (st : FacadeState) : FacadeState :=
  let st1 := { st with active := true }
  if st1.taskHandle then st1
  else { st1 with taskHandle := true, tasksCreated := st1.tasksCreated + 1 }

/-- Effect of `cleanup()` on the same fields: the task is cancelled but the
handle is kept, and `_active` is cleared. -/
def closeStart (st : FacadeState) : FacadeState :=
  { st with active := false }

def facadeStep (op : FacadeOp) (st : FacadeState) : FacadeState :=
  match op with
  | .connectOp => connectStart st
  | .closeOp => closeStart st

def facadeRun : List FacadeOp → FacadeState → FacadeState
  | [], st => st
  | op :: ops, st => facadeRun ops (facadeStep op st)

/-- A freshly constructed client: `_process_task = None`. -/
def facadeInit : FacadeState := ⟨false, false, 0⟩

/-! Part: helper lemmas -/

theorem out_packet_length (id type : Int) (body : List Nat) :
    (out_packet id type body).length = 10 + body.length := by
  simp [out_packet, int32LEBytes]
  omega

theorem verify_ok_of_wellFormed (p : List Nat) (h : wellFormedPkt p) :
    verify p = .ok ((p.take (p.length - 2)).drop 8) := by
  obtain ⟨h8, hid, hpad⟩ := h
  unfold verify
  simp only [if_neg (by omega : ¬ p.length < 8)]
  rw [if_neg hid, if_neg (by simp [hpad])]

theorem verify_badPadding (p : List Nat) (h8 : 8 ≤ p.length)
    (hid : int32LE (p.take 4) ≠ -1) (hpad : p.drop (p.length - 2) ≠ [0, 0]) :
    verify p = .error protocolError := by
  unfold verify
  simp only [if_neg (by omega : ¬ p.length < 8)]
  rw [if_neg hid, if_pos (by simp [hpad])]

theorem workerRun_inactive (fuel : Nat) (st : WState) (h : st.active = false) :
    workerRun fuel st = st := by
  cases fuel with
  | zero => rfl
  | succ fuel => simp [workerRun, h]

/-- Generalized FIFO invariant of the worker loop: with enough fuel and a
well-formed response for every queued command, every queued resultSlot is
resolved, appended to `resolutions` in queue order, every frame is
written in queue order, and the worker stays active. -/
theorem workerRun_fifo_general :
    ∀ (queue : List (Nat × List Nat)) (fuel : Nat) (st : WState),
    st.active = true → st.crashed = false → st.inReconnect = false →
    st.queue = queue →
    (∀ e ∈ st.responses, ∃ p, e = .pkt p ∧ wellFormedPkt p) →
    queue.length ≤ st.responses.length →
    queue.length ≤ fuel →
    (workerRun fuel st).resolutions.map Prod.fst =
        st.resolutions.map Prod.fst ++ queue.map Prod.fst ∧
    (workerRun fuel st).sent =
        st.sent ++ queue.map (fun q => out_frame 0 2 q.2) ∧
    (workerRun fuel st).active = true := by
  intro queue
  induction queue with
  | nil =>
    intro fuel st hact hcr hrec hq _ _ _
    have : workerRun fuel st = st := by
      cases fuel with
      | zero => rfl
      | succ fuel => simp [workerRun, hact, hcr, hrec, hq]
    simp [this, hact]
  | cons hd tl ih =>
    intro fuel st hact hcr hrec hq hresp hlen hfuel
    obtain ⟨i, cmd⟩ := hd
    cases fuel with
    | zero => simp at hfuel
    | succ fuel =>
      match hr : st.responses with
      | [] => rw [hr] at hlen; simp at hlen
      | e :: resp' =>
        obtain ⟨p, hep, hwf⟩ := hresp e (by rw [hr]; simp)
        subst hep
        have hstep : workerRun (fuel + 1) st =
            workerRun fuel
              { st with queue := tl,
                        sent := st.sent ++ [out_frame 0 2 cmd],
                        responses := resp',
                        resolutions := st.resolutions ++
                          [(i, (p.take (p.length - 2)).drop 8)] } := by
          rw [workerRun]
          simp only [hact, hcr, hrec, hq, hr]
          simp [verify_ok_of_wellFormed p hwf]
        rw [hstep]
        obtain ⟨h1, h2, h3⟩ := ih fuel
          { st with queue := tl,
                    sent := st.sent ++ [out_frame 0 2 cmd],
                    responses := resp',
                    resolutions := st.resolutions ++
                      [(i, (p.take (p.length - 2)).drop 8)] }
          hact hcr hrec rfl
          (by intro x hx
              exact hresp x (by rw [hr]; exact List.mem_cons_of_mem _ hx))
          (by show tl.length ≤ resp'.length
              rw [hr] at hlen; simp at hlen; omega)
          (by simp at hfuel; omega)
        refine ⟨?_, ?_, h3⟩
        · rw [h1]; simp
        · rw [h2]; simp

/-- Generalized divergence of `_reconnect` when every `open_connection`
fails: after `fuel` loop iterations the routine is still looping, having
made `fuel` more open attempts and slept `fuel` more times; the
`attempt == 5` ceiling only creates an un-awaited `_cleanup` coroutine. -/
theorem reconnectRun_alwaysFail :
    ∀ (fuel : Nat) (loginOk : Bool) (a o s c : Nat),
    ∃ c', reconnectRun (fun _ => false) loginOk fuel ⟨false, a, o, s, c⟩ =
      .timeout ⟨false, a + fuel, o + fuel, s + fuel, c'⟩ := by
  intro fuel
  induction fuel with
  | zero => intro loginOk a o s c; exact ⟨c, rfl⟩
  | succ fuel ih =>
    intro loginOk a o s c
    have hstep : reconnectStep (fun _ => false) loginOk ⟨false, a, o, s, c⟩ =
        .next ⟨false, a + 1, o + 1, s + 1, if a = 5 then c + 1 else c⟩ := by
      unfold reconnectStep
      by_cases ha : a = 5 <;> simp [ha]
    obtain ⟨c', hc'⟩ :=
      ih loginOk (a + 1) (o + 1) (s + 1) (if a = 5 then c + 1 else c)
    refine ⟨c', ?_⟩
    rw [reconnectRun, hstep]
    show reconnectRun (fun _ => false) loginOk fuel
        ⟨false, a + 1, o + 1, s + 1, if a = 5 then c + 1 else c⟩ = _
    rw [hc']
    simp only [ReconOut.timeout.injEq, ReconState.mk.injEq]
    refine ⟨trivial, by omega, by omega, by omega, trivial⟩

/-- Once the task handle is set, no later operation creates another task
(nothing ever resets `_process_task` to `None`). -/
theorem facadeRun_handle_set (ops : List FacadeOp) :
    ∀ st : FacadeState, st.taskHandle = true →
      (facadeRun ops st).tasksCreated = st.tasksCreated ∧
      (facadeRun ops st).taskHandle = true := by
  induction ops with
  | nil => intro st h; exact ⟨rfl, h⟩
  | cons op ops ih =>
    intro st h
    have hstep : facadeStep op st =
        { st with active := (match op with | .connectOp => true | .closeOp => false) } := by
      cases op <;> simp [facadeStep, connectStart, closeStart, h]
    rw [facadeRun, hstep]
    exact ih _ h

theorem facadeRun_fresh (ops : List FacadeOp) :
    ∀ st : FacadeState, st.taskHandle = false → st.tasksCreated = 0 →
      (facadeRun ops st).tasksCreated ≤ 1 ∧
      (FacadeOp.connectOp ∈ ops → (facadeRun ops st).tasksCreated = 1) := by
  induction ops with
  | nil =>
    intro st _ h0
    rw [facadeRun, h0]
    exact ⟨by omega, by simp⟩
  | cons op ops ih =>
    intro st hh h0
    cases op with
    | connectOp =>
      have hstep : facadeStep .connectOp st =
          { st with active := true, taskHandle := true, tasksCreated := 1 } := by
        simp [facadeStep, connectStart, hh, h0]
      obtain ⟨h1, h2⟩ := facadeRun_handle_set ops
        { st with active := true, taskHandle := true, tasksCreated := 1 } rfl
      rw [facadeRun, hstep]
      exact ⟨by rw [h1], fun _ => by rw [h1]⟩
    | closeOp =>
      have hstep : facadeStep .closeOp st = { st with active := false } := by
        simp [facadeStep, closeStart]
      obtain ⟨h1, h2⟩ := ih { st with active := false } hh h0
      rw [facadeRun, hstep]
      exact ⟨h1, fun hm => h2 (by simpa using hm)⟩

/-! Part: claim theorems -/

/-- Claim C1 (status: code_bug).  The claim — and `_reconnect`'s own
docstring — say that when every attempt to open the transport fails the
routine stops after the retry ceiling and surfaces a fatal
`ConnectionError` via `_cleanup`.  The code instead calls
`self._cleanup(ConnectionError, "Unable to reconnect.")` *without
`await`* at `attempt == 5` (merely creating a coroutine object that
never runs, so nothing is raised) and has no `break`/`return` there, so
`attempt` increments past the ceiling and the loop retries forever: for
every fuel bound the run is still looping (`.timeout`), having made
`fuel` open attempts and `fuel` sleeps of 5 time units, and no
`.raised`/`.done` outcome ever occurs. -/
theorem reconnect_always_failing_loops_forever (loginOk : Bool) (fuel : Nat) :
    ∃ c, reconnectRun (fun _ => false) loginOk fuel reconInit =
      .timeout ⟨false, fuel, fuel, fuel, c⟩ := by
  obtain ⟨c', h⟩ := reconnectRun_alwaysFail fuel loginOk 0 0 0 0
  exact ⟨c', by simpa using h⟩

/-- Claim C10 (status: confirmed).  Whenever `_reconnect` is entered
while `self._writer` is already set — second `connect()`, or the
worker's re-entry after a mid-session connection error (the handle is
never cleared on error) — the `if not self._writer:` guard skips the
whole `try` body on every iteration: no `open_connection`, no login, no
exception, no `break`; the loop only sleeps, forever.  For every fuel
bound and every transport/login behaviour the run is still looping with
only the sleep counter advanced. -/
theorem reconnect_with_writer_never_terminates (ok : Nat → Bool) (loginOk : Bool)
    (fuel : Nat) (st : ReconState) (h : st.writerHandle = true) :
    reconnectRun ok loginOk fuel st =
      .timeout { st with sleeps := st.sleeps + fuel } := by
  induction fuel generalizing st with
  | zero => rfl
  | succ fuel ih =>
    have hstep : reconnectStep ok loginOk st =
        .next { st with sleeps := st.sleeps + 1 } := by
      unfold reconnectStep; simp [h]
    rw [reconnectRun, hstep]
    show reconnectRun ok loginOk fuel { st with sleeps := st.sleeps + 1 } = _
    rw [ih { st with sleeps := st.sleeps + 1 } h]
    simp only [ReconOut.timeout.injEq]
    simp [Nat.add_assoc]
    omega

theorem reconnect_with_writer_never_terminates_witness :
    (⟨true, 0, 0, 0, 0⟩ : ReconState).writerHandle = true ∧
    reconnectRun (fun _ => true) true 4 ⟨true, 0, 0, 0, 0⟩ =
      .timeout ⟨true, 0, 0, 4, 0⟩ :=
  ⟨rfl, by
    have := reconnect_with_writer_never_terminates (fun _ => true) true 4
      ⟨true, 0, 0, 0, 0⟩ rfl
    simpa using this⟩

/-- Claim C2 (status: confirmed).  Any response packet whose decoded
`requestId` is `-1` makes `_verify` run `_cleanup(ValueError,
"Incorrect password.")` — the spec's `AuthenticationError` — before the
padding check, regardless of the type field or body content, so the
exchange never yields a successful result. -/
theorem verify_auth_sentinel (p : List Nat) (h8 : 8 ≤ p.length)
    (hid : int32LE (p.take 4) = -1) :
    verify p = .error authenticationError ∧ ∀ d, verify p ≠ .ok d := by
  have h : verify p = .error authenticationError := by
    unfold verify
    rw [if_neg (by omega), if_pos hid]
  exact ⟨h, fun d hd => by rw [h] at hd; exact Except.noConfusion hd⟩

theorem verify_auth_sentinel_witness :
    8 ≤ ([255, 255, 255, 255, 2, 0, 0, 0, 65, 66, 0, 0] : List Nat).length ∧
    int32LE (([255, 255, 255, 255, 2, 0, 0, 0, 65, 66, 0, 0] : List Nat).take 4) = -1 ∧
    verify [255, 255, 255, 255, 2, 0, 0, 0, 65, 66, 0, 0] = .error authenticationError :=
  ⟨by decide, by decide,
    (verify_auth_sentinel [255, 255, 255, 255, 2, 0, 0, 0, 65, 66, 0, 0]
      (by decide) (by decide)).1⟩

/-- Claim C3 (status: corrected) — counterexample.  The claim says a
bad-padding response yields a `ProtocolError` scoped to that single
command: the affected resultSlot is rejected, the connection and worker
remain usable, and a subsequent well-formed exchange succeeds.  Concrete
run refuting it: two queued commands; the first response has final bytes
`0x01 0x02`, the second is well formed.  After the run no resultSlot was
ever resolved or rejected (the `ValueError` is caught by `_process` and
only logged, the future left pending), the transport has been closed,
cancellation of the worker was requested, `_active` is `False`, and the
second command is still queued — the subsequent well-formed exchange
never happens. -/
theorem worker_bad_padding_counterexample :
    (workerRun 3 (mkWState [(0, [97]), (1, [98])]
        [.pkt [0, 0, 0, 0, 0, 0, 0, 0, 1, 2],
         .pkt [0, 0, 0, 0, 0, 0, 0, 0, 111, 107, 0, 0]])).resolutions = [] ∧
    (workerRun 3 (mkWState [(0, [97]), (1, [98])]
        [.pkt [0, 0, 0, 0, 0, 0, 0, 0, 1, 2],
         .pkt [0, 0, 0, 0, 0, 0, 0, 0, 111, 107, 0, 0]])).active = false ∧
    (workerRun 3 (mkWState [(0, [97]), (1, [98])]
        [.pkt [0, 0, 0, 0, 0, 0, 0, 0, 1, 2],
         .pkt [0, 0, 0, 0, 0, 0, 0, 0, 111, 107, 0, 0]])).writerClosed = true ∧
    (workerRun 3 (mkWState [(0, [97]), (1, [98])]
        [.pkt [0, 0, 0, 0, 0, 0, 0, 0, 1, 2],
         .pkt [0, 0, 0, 0, 0, 0, 0, 0, 111, 107, 0, 0]])).queue = [(1, [98])] := by
  decide

/-- Claim C3 (status: corrected) — amended.  For every exchange whose
response has at least the 8 header bytes, a non-sentinel id, and final
two bytes other than `0x00 0x00`, `_verify` raises
`ValueError("Invalid padding.")` (the spec's `ProtocolError`) *through
`_cleanup`*, whose effect is not scoped to the single command: the
transport is closed, cancellation of the worker task is requested and
`_active` is cleared before the raise; `_process` catches the
`ValueError` and only logs it, leaving the affected resultSlot
unresolved (never rejected), and the worker loop then exits, so the
remaining queued commands are never processed. -/
theorem worker_bad_padding_cleanup (p : List Nat) (i : Nat) (cmd : List Nat)
    (rest : List (Nat × List Nat)) (resp' : List RespEvent) (fuel : Nat)
    (h8 : 8 ≤ p.length) (hid : int32LE (p.take 4) ≠ -1)
    (hpad : p.drop (p.length - 2) ≠ [0, 0]) :
    workerRun (fuel + 1) (mkWState ((i, cmd) :: rest) (.pkt p :: resp')) =
      { active := false, writerHandle := true, writerClosed := true,
        taskCancelRequested := true, queue := rest, resolutions := [],
        sent := [out_frame 0 2 cmd], responses := resp',
        crashed := false, inReconnect := false } := by
  rw [workerRun]
  simp only [mkWState]
  simp [verify_badPadding p h8 hid hpad, protocolError, workerRun_inactive]

theorem worker_bad_padding_cleanup_witness :
    8 ≤ ([0, 0, 0, 0, 0, 0, 0, 0, 1, 2] : List Nat).length ∧
    int32LE (([0, 0, 0, 0, 0, 0, 0, 0, 1, 2] : List Nat).take 4) ≠ -1 ∧
    ([0, 0, 0, 0, 0, 0, 0, 0, 1, 2] : List Nat).drop
      (([0, 0, 0, 0, 0, 0, 0, 0, 1, 2] : List Nat).length - 2) ≠ [0, 0] ∧
    workerRun 2 (mkWState [(0, [97]), (1, [98])] [.pkt [0, 0, 0, 0, 0, 0, 0, 0, 1, 2]]) =
      { active := false, writerHandle := true, writerClosed := true,
        taskCancelRequested := true, queue := [(1, [98])], resolutions := [],
        sent := [out_frame 0 2 [97]], responses := [],
        crashed := false, inReconnect := false } :=
  ⟨by decide, by decide, by decide,
    worker_bad_padding_cleanup [0, 0, 0, 0, 0, 0, 0, 0, 1, 2] 0 [97] [(1, [98])] [] 1
      (by decide) (by decide) (by decide)⟩

/-- Claim C5 (status: confirmed).  For `N` concurrent `send()` calls on a
non-failing connection (every mock-transport event a well-formed
response packet, one per queued command), the single worker dequeues in
FIFO order, writes each request frame in that order, and resolves the
resultSlots in exactly the enqueue order; it stays active throughout. -/
theorem worker_fifo (queue : List (Nat × List Nat)) (responses : List RespEvent)
    (fuel : Nat)
    (hresp : ∀ e ∈ responses, wellFormedEvent e)
    (hlen : queue.length ≤ responses.length)
    (hfuel : queue.length ≤ fuel) :
    (workerRun fuel (mkWState queue responses)).resolutions.map Prod.fst =
        queue.map Prod.fst ∧
    (workerRun fuel (mkWState queue responses)).sent =
        queue.map (fun q => out_frame 0 2 q.2) ∧
    (workerRun fuel (mkWState queue responses)).active = true := by
  obtain ⟨h1, h2, h3⟩ := workerRun_fifo_general queue fuel (mkWState queue responses)
    rfl rfl rfl rfl
    (by intro e he
        have := hresp e he
        cases e with
        | pkt p => exact ⟨p, rfl, this⟩
        | connError => exact absurd this (by simp [wellFormedEvent]))
    hlen hfuel
  exact ⟨by simpa using h1, by simpa using h2, h3⟩

theorem worker_fifo_witness :
    (∀ e ∈ ([.pkt [0, 0, 0, 0, 0, 0, 0, 0, 111, 107, 0, 0],
             .pkt [0, 0, 0, 0, 0, 0, 0, 0, 121, 101, 115, 0, 0]] : List RespEvent),
        wellFormedEvent e) ∧
    (workerRun 2 (mkWState [(0, [108, 105, 115, 116]), (1, [104, 105])]
        [.pkt [0, 0, 0, 0, 0, 0, 0, 0, 111, 107, 0, 0],
         .pkt [0, 0, 0, 0, 0, 0, 0, 0, 121, 101, 115, 0, 0]])).resolutions.map Prod.fst =
      [0, 1] :=
  ⟨by decide,
    (worker_fifo [(0, [108, 105, 115, 116]), (1, [104, 105])]
      [.pkt [0, 0, 0, 0, 0, 0, 0, 0, 111, 107, 0, 0],
       .pkt [0, 0, 0, 0, 0, 0, 0, 0, 121, 101, 115, 0, 0]] 2
      (by decide) (by decide) (by decide)).1⟩

/-- Front slice of the encoded packet: the 8 header bytes then the body. -/
theorem out_packet_front (id type : Int) (body : List Nat) :
    out_packet id type body =
      (int32LEBytes id ++ int32LEBytes type ++ body) ++ [0, 0] := by
  simp [out_packet]

theorem out_packet_wellFormed (id type : Int) (body : List Nat)
    (hid1 : -2147483648 ≤ id) (hid2 : id < 2147483648) (hidne : id ≠ -1) :
    wellFormedPkt (out_packet id type body) := by
  have hL := out_packet_length id type body
  refine ⟨by omega, ?_, ?_⟩
  · have htake : (out_packet id type body).take 4 = int32LEBytes id := by
      unfold out_packet
      exact List.take_left' (int32LEBytes_length id)
    rw [htake, int32LE_int32LEBytes id hid1 hid2]
    exact hidne
  · rw [out_packet_front]
    exact List.drop_left' (by simp [int32LEBytes_length]; omega)

theorem out_packet_body (id type : Int) (body : List Nat) :
    ((out_packet id type body).take ((out_packet id type body).length - 2)).drop 8 =
      body := by
  rw [out_packet_front]
  have htake : ((int32LEBytes id ++ int32LEBytes type ++ body) ++ [0, 0]).take
      (((int32LEBytes id ++ int32LEBytes type ++ body) ++ [0, 0]).length - 2) =
      int32LEBytes id ++ int32LEBytes type ++ body :=
    List.take_left' (by simp [int32LEBytes_length]; omega)
  rw [htake]
  exact List.drop_left' (by simp [int32LEBytes_length])

/-- Claim C4 (status: confirmed).  For every valid `requestId` (a signed
32-bit value other than the `-1` sentinel), valid `type`, and body whose
frame length fits in a signed 32-bit length prefix, decoding the bytes
produced by encoding — reading the 4-byte length prefix, taking exactly
that many following bytes, and splitting off the 8-byte id/type header
and 2-byte padding after validating padding and sentinel — reproduces
the body exactly. -/
theorem decode_encode_roundtrip (id type : Int) (body : List Nat)
    (hid1 : -2147483648 ≤ id) (hid2 : id < 2147483648) (hidne : id ≠ -1)
    (hty1 : -2147483648 ≤ type) (hty2 : type < 2147483648)
    (hlen : body.length ≤ 2147483637) :
    decodeFrame (out_frame id type body) = .ok body := by
  have hL := out_packet_length id type body
  have htake4 : (out_frame id type body).take 4 =
      int32LEBytes ((out_packet id type body).length : Int) := by
    unfold out_frame out_len
    exact List.take_left' (int32LEBytes_length _)
  have hdrop4 : (out_frame id type body).drop 4 = out_packet id type body := by
    unfold out_frame out_len
    exact List.drop_left' (int32LEBytes_length _)
  have hpref : int32LE ((out_frame id type body).take 4) =
      ((out_packet id type body).length : Int) := by
    rw [htake4]
    refine int32LE_int32LEBytes _ ?_ ?_
    · have := Int.natCast_nonneg (out_packet id type body).length
      omega
    · rw [hL]; push_cast; omega
  unfold decodeFrame recvPacket
  rw [hpref, hdrop4]
  have htoNat : (((out_packet id type body).length : Int)).toNat =
      (out_packet id type body).length := Int.toNat_natCast _
  rw [htoNat, List.take_length]
  rw [verify_ok_of_wellFormed _ (out_packet_wellFormed id type body hid1 hid2 hidne)]
  rw [out_packet_body]

theorem decode_encode_roundtrip_witness :
    ((-2147483648 : Int) ≤ 7 ∧ (7 : Int) < 2147483648 ∧ (7 : Int) ≠ -1 ∧
      (-2147483648 : Int) ≤ 2 ∧ (2 : Int) < 2147483648 ∧
      ([108, 105, 115, 116] : List Nat).length ≤ 2147483637) ∧
    decodeFrame (out_frame 7 2 [108, 105, 115, 116]) = .ok [108, 105, 115, 116] :=
  ⟨by decide,
    decode_encode_roundtrip 7 2 [108, 105, 115, 116]
      (by decide) (by decide) (by decide) (by decide) (by decide) (by decide)⟩

/-- Claim C7 (status: confirmed).  The frame written by `_send` is
exactly the 4-byte little-endian length prefix, the id as int32 LE (the
source passes the literal `0`; the statement is over any id), the type
as int32 LE, the command's UTF-8 bytes, then the literal bytes
`0x00 0x00`; the prefix's decoded value equals the byte count of
everything following it.  `out_frame` is a pure function: the write is
its only use. -/
theorem send_frame_layout (id type : Int) (body : List Nat)
    (hlen : body.length ≤ 2147483637) :
    out_frame id type body =
      int32LEBytes ((10 + body.length : Nat) : Int) ++
        (int32LEBytes id ++ int32LEBytes type ++ body ++ [0, 0]) ∧
    int32LE ((out_frame id type body).take 4) =
      (((out_frame id type body).drop 4).length : Int) := by
  have hL := out_packet_length id type body
  constructor
  · unfold out_frame out_len
    rw [hL]
    rfl
  · have htake4 : (out_frame id type body).take 4 =
        int32LEBytes ((out_packet id type body).length : Int) := by
      unfold out_frame out_len
      exact List.take_left' (int32LEBytes_length _)
    have hdrop4 : (out_frame id type body).drop 4 = out_packet id type body := by
      unfold out_frame out_len
      exact List.drop_left' (int32LEBytes_length _)
    rw [htake4, hdrop4]
    refine int32LE_int32LEBytes _ ?_ ?_
    · have := Int.natCast_nonneg (out_packet id type body).length
      omega
    · rw [hL]; push_cast; omega

theorem send_frame_layout_witness :
    ([104, 105] : List Nat).length ≤ 2147483637 ∧
    int32LE ((out_frame 0 2 [104, 105]).take 4) =
      (((out_frame 0 2 [104, 105]).drop 4).length : Int) :=
  ⟨by decide, (send_frame_layout 0 2 [104, 105] (by decide)).2⟩

/-- Claim C6 (status: confirmed).  `close()` (i.e. `cleanup()` with no
error to raise) never raises; called twice in a row — from any resource
state, including the never-connected fresh state — it releases the
transport at most once more and delivers at most one more effective
worker cancellation than before (`StreamWriter.close()` is idempotent on
an already-closing transport and `Task.cancel()` on a finished task is a
no-op), and from the fresh never-connected state it touches no resource
at all. -/
theorem close_twice_idempotent (st : CleanupState) :
    (cleanupRun st none none).2 = none ∧
    (cleanupRun (cleanupRun st none none).1 none none).2 = none ∧
    (cleanupRun (cleanupRun st none none).1 none none).1.releaseCount ≤
      st.releaseCount + 1 ∧
    (cleanupRun (cleanupRun st none none).1 none none).1.cancelCount ≤
      st.cancelCount + 1 ∧
    (cleanupRun (cleanupRun cleanupInit none none).1 none none).1.releaseCount = 0 ∧
    (cleanupRun (cleanupRun cleanupInit none none).1 none none).1.cancelCount = 0 := by
  obtain ⟨w, wr, rc, t, tf, cc, a⟩ := st
  cases w <;> cases wr <;> cases t <;> cases tf <;>
    simp [cleanupRun, cleanupInit] <;> omega

/-- Claim C8 (status: confirmed).  For every requested byte count, when
the stream's scheduled chunk sizes are all positive (each
`reader.read()` call yields at least one byte, in arbitrarily short
chunks) and at least that many bytes are eventually available, `_read`
loops over the short reads and returns exactly the first `len_b` bytes —
never treating a partial read as complete, never consuming more.  This
is the read primitive `_send` uses for the 4-byte length prefix and then
for exactly the prefixed number of bytes. -/
theorem read_loops_over_short_reads (len_b : Nat) (stream sizes : List Nat)
    (fuel : Nat)
    (hsz : ∀ s ∈ sizes, 1 ≤ s) (hlen : len_b ≤ stream.length)
    (hfuel : len_b < fuel) :
    ∃ sizes', readLoop fuel len_b [] stream sizes =
      some (stream.take len_b, stream.drop len_b, sizes') := by
  obtain ⟨sz', h⟩ := readLoop_exact fuel len_b [] stream sizes hsz
    (by simpa using hlen) (by simpa using hfuel)
  exact ⟨sz', by simpa using h⟩

theorem read_loops_over_short_reads_witness :
    (∀ s ∈ ([2, 1, 3] : List Nat), 1 ≤ s) ∧ (5 : Nat) ≤ 7 ∧ (5 : Nat) < 6 ∧
    ∃ sizes', readLoop 6 5 [] [10, 20, 30, 40, 50, 60, 70] [2, 1, 3] =
      some (([10, 20, 30, 40, 50, 60, 70] : List Nat).take 5,
            ([10, 20, 30, 40, 50, 60, 70] : List Nat).drop 5, sizes') :=
  ⟨by decide, by decide, by decide,
    read_loops_over_short_reads 5 [10, 20, 30, 40, 50, 60, 70] [2, 1, 3] 6
      (by decide) (by decide) (by decide)⟩

/-- Claim C9 (status: confirmed).  Across every sequence of `connect()`
and `close()` calls on one client, at most one `_process` worker task is
ever created: `connect()` only creates it when `self._process_task` is
unset, nothing ever resets the handle, and once any `connect()` occurred
the creation count is exactly one. -/
theorem connect_creates_at_most_one_task (ops : List FacadeOp) :
    (facadeRun ops facadeInit).tasksCreated ≤ 1 ∧
    (FacadeOp.connectOp ∈ ops → (facadeRun ops facadeInit).tasksCreated = 1) :=
  facadeRun_fresh ops facadeInit rfl rfl

theorem connect_creates_at_most_one_task_witness :
    FacadeOp.connectOp ∈ [FacadeOp.connectOp, FacadeOp.closeOp, FacadeOp.connectOp] ∧
    (facadeRun [FacadeOp.connectOp, FacadeOp.closeOp, FacadeOp.connectOp]
        facadeInit).tasksCreated = 1 :=
  ⟨by decide,
    (connect_creates_at_most_one_task
      [FacadeOp.connectOp, FacadeOp.closeOp, FacadeOp.connectOp]).2 (by decide)⟩

end PyWrite
